import Mathlib

/-
Verification of the MnoVnoC Model runtime (src/utils.js and the Model file).
The JavaScript code is shallowly embedded: JS objects become association
lists in insertion order, mutation becomes explicit state passing, and the
asynchronous persistence adapter becomes a record of state-transformer
functions.  The dirty-state sentinel EMPTY_DIRTY is modelled by Option:
none is the shared empty marker, some d is a freshly allocated dirty map.
-/

namespace MnoVnoC

/-- The subset of JavaScript primitive values used by the model runtime.
Strict equality on this subset coincides with structural equality. -/
inductive JsVal where
  | undefined
  | null
  | bool (b : Bool)
  | num (n : Int)
  | str (s : String)
deriving DecidableEq, Repr

/-- JS loose comparison v == null holds exactly for null and undefined. -/
def JsVal.isNullish : JsVal → Bool
  | .undefined => true
  | .null => true
  | _ => false

/-- A JS object viewed as data: keys to values, in insertion order. -/
abbrev Bag := List (String × JsVal)

/-- Property read on an association list: first entry with the key. -/
def alookup {α : Type} : List (String × α) → String → Option α
  | [], _ => none
  | kv :: rest, k => if kv.1 = k then some kv.2 else alookup rest k

/-- Property assignment on an association list: replace in place when the
key exists (JS keeps the original insertion position), append otherwise. -/
def setKey {α : Type} : List (String × α) → String → α → List (String × α)
  | [], k, v => [(k, v)]
  | kv :: rest, k, v => if kv.1 = k then (k, v) :: rest else kv :: setKey rest k v

/-- The mutable state of one Model instance: own data properties, the
data-valued properties visible through the prototype, the dirty map
(none is the EMPTY_DIRTY sentinel), and the refreshedAt stamp. -/
structure ModelState where
  props : Bag
  protoVals : Bag
  dirtyFields : Option Bag
  refreshedAt : Option Nat
deriving DecidableEq, Repr

/-- Reading this[k]: own properties shadow the prototype; a missing
property reads as undefined. -/
def ModelState.read (m : ModelState) (k : String) : JsVal :=
  match alookup m.props k with
  | some v => v
  | none => (alookup m.protoVals k).getD .undefined

/-- Model.prototype._clearDirty: this._dirtyFields = EMPTY_DIRTY. -/
def ModelState.clearDirty (m : ModelState) : ModelState :=
  { m with dirtyFields := none }

/-- Model.prototype.hasChanged: this._dirtyFields !== EMPTY_DIRTY. -/
def ModelState.hasChanged (m : ModelState) : Bool :=
  m.dirtyFields.isSome

/-- Model.prototype.changed: the dirty map when changed, else empty. -/
def ModelState.changed (m : ModelState) : Bag :=
  match m.dirtyFields with
  | none => []
  | some d => d

/-- Model.prototype.isNew: this.id == null. -/
def ModelState.isNew (m : ModelState) : Bool :=
  (m.read "id").isNullish

/-- The dirty key of a property name: when the first character is an
underscore the name without it, else the name itself (name[0] checked,
then substr(1)). -/
def stripUnderscore (s : String) : String :=
  match s.data with
  | '_' :: rest => String.mk rest
  | _ => s

/-- Model.prototype.set, single form: no-op when this[name] === value,
otherwise allocate a dirty map if clean, record the value under the
stripped key, and assign the property. -/
def ModelState.set1 (m : ModelState) (k : String) (v : JsVal) : ModelState :=
  if m.read k = v then m
  else
    { m with
      dirtyFields := some (setKey (m.dirtyFields.getD []) (stripUnderscore k) v),
      props := setKey m.props k v }

/-- Model.prototype.set, bag form: single-form set for each pair in
order, then clear dirty state if any key was id. -/
def ModelState.setMany (m : ModelState) (bag : Bag) : ModelState :=
  let m2 := bag.foldl (fun st kv => st.set1 kv.1 kv.2) m
  if bag.any (fun kv => kv.1 = "id") then m2.clearDirty else m2

/-- An argument to the Model constructor: undefined, a plain object, or a
function value (such as the optional callback). -/
inductive Arg where
  | undefined
  | obj (b : Bag)
  | fnArg (id : Nat)
deriving DecidableEq, Repr

/-- properties = properties || an empty object: a missing or undefined
first argument is replaced by an empty bag; objects and functions are
truthy and kept as they are. -/
def coerceProps : Arg → Arg
  | .undefined => .obj []
  | a => a

/-- The bag enumerated by the constructor's for-in loop over properties:
a plain object yields its own entries, anything else yields nothing. -/
def Arg.bag : Arg → Bag
  | .obj b => b
  | _ => []

/-- The type of the init hook: it receives the instance state and the
(aliased) constructor arguments and returns the mutated state. -/
abbrev InitFn := ModelState → List Arg → ModelState

/-- Model.prototype.init: a no-op. -/
def defaultInit : InitFn := fun st _ => st

/-- The argument list seen by this.init.apply(this, arguments).  In sloppy
mode the reassignment properties = properties || an empty object is
reflected in arguments[0] only when a first argument was actually
supplied; with zero arguments init receives zero arguments. -/
def initArgsOf : List Arg → List Arg
  | [] => []
  | a :: rest => coerceProps a :: rest

/-- The Model constructor body before the init call: clear dirty state,
apply defaults through tracked set, apply the supplied properties through
tracked set, then clear dirty state again when properties.id != null. -/
def constructPre (defaults protoValues : Bag) (args : List Arg) : ModelState :=
  let st0 : ModelState :=
    { props := [], protoVals := protoValues, dirtyFields := none, refreshedAt := none }
  let st1 := defaults.foldl (fun st kv => st.set1 kv.1 kv.2) st0
  let bag := (coerceProps (args.headD .undefined)).bag
  let st2 := bag.foldl (fun st kv => st.set1 kv.1 kv.2) st1
  if ((alookup bag "id").getD .undefined).isNullish then st2 else st2.clearDirty

/-- function Model(properties, callback): the constructor protocol
followed by the init hook applied to the aliased arguments. -/
def construct (defaults protoValues : Bag) (initHook : InitFn) (args : List Arg) : ModelState :=
  initHook (constructPre defaults protoValues args) (initArgsOf args)

/-- The persistence adapter: each operation takes the entity state and the
options bag, and returns the mutated entity state together with the error
value it passes to its completion callback (none on success). -/
structure DataOps (O E : Type) where
  createOp : ModelState → O → ModelState × Option E
  updateOp : ModelState → O → ModelState × Option E
  fetchOp : ModelState → O → ModelState × Option E
  destroyOp : ModelState → O → ModelState × Option E

/-- The error value save delivers to its callback. -/
inductive SaveError (E : Type) where
  | validationErrors (errs : List String)
  | badImplementation (message : String)
  | adapterError (e : E)
deriving Repr

/-- Which adapter operation save invoked. -/
inductive AdapterCall where
  | createCall
  | updateCall
deriving DecidableEq, Repr

/-- The message of the implementation-error result in save. -/
def badImplMessage : String :=
  "id property should have been set after create was called"

/-- The body of the validate callback inside Model.prototype.save: fail
with the validation errors when any, otherwise dispatch on self.id != null
to update or create; on a successful create verify that id was set.  The
result carries the final entity state, the callback error (none on
success), and the list of adapter operations invoked. -/
def saveAfterValidate {O E : Type} (data : DataOps O E) (options : O)
    (m1 : ModelState) (errors : List String) :
    ModelState × Option (SaveError E) × List AdapterCall :=
  if errors.length > 0 then
    (m1, some (.validationErrors errors), [])
  else if (m1.read "id").isNullish = false then
    match data.updateOp m1 options with
    | (m2, none) => (m2.clearDirty, none, [.updateCall])
    | (m2, some e) => (m2, some (.adapterError e), [.updateCall])
  else
    match data.createOp m1 options with
    | (m2, some e) => (m2, some (.adapterError e), [.createCall])
    | (m2, none) =>
      if (m2.read "id").isNullish then
        (m2, some (.badImplementation badImplMessage), [.createCall])
      else
        (m2.clearDirty, none, [.createCall])

/-- Model.prototype.save: run validate once, then the dispatch above on
the state validate left behind. -/
def save {O E : Type} (data : DataOps O E)
    (validateF : ModelState → ModelState × List String)
    (options : O) (m : ModelState) :
    ModelState × Option (SaveError E) × List AdapterCall :=
  saveAfterValidate data options (validateF m).1 (validateF m).2

/-- Model.prototype.fetch: delegate to data.fetch; on success stamp
refreshedAt with the current time and clear dirty state, on failure pass
the error through untouched. -/
def fetch {O E : Type} (data : DataOps O E) (options : O) (now : Nat)
    (m : ModelState) : ModelState × Option E :=
  match data.fetchOp m options with
  | (m2, none) => ({ m2 with refreshedAt := some now, dirtyFields := none }, none)
  | (m2, some e) => (m2, some e)

/-- Model.prototype.destroy: delegate to data.destroy and forward the
result unchanged. -/
def destroy {O E : Type} (data : DataOps O E) (options : O)
    (m : ModelState) : ModelState × Option E :=
  data.destroyOp m options

/-- Model.prototype.validate: always succeeds with an empty error list. -/
def defaultValidate : ModelState → ModelState × List String :=
  fun m => (m, [])

/-- A member of a prototype or overrides object as seen by extend: a
plain data value, an object-valued member, a method, or an accessor pair
(getter and setter identified abstractly). -/
inductive Desc where
  | plain (v : JsVal)
  | bagVal (b : Bag)
  | method (f : InitFn)
  | accessor (g s : Option Nat)

/-- A prototype: named members in insertion order. -/
abbrev Proto := List (String × Desc)

/-- obj.__defineGetter__(k, g): replace the getter, keeping an existing
accessor's setter; a data property is replaced wholesale. -/
def defineGetter (p : Proto) (k : String) (g : Nat) : Proto :=
  match alookup p k with
  | some (.accessor _ s0) => setKey p k (.accessor (some g) s0)
  | _ => setKey p k (.accessor (some g) none)

/-- obj.__defineSetter__(k, s): dual to defineGetter. -/
def defineSetter (p : Proto) (k : String) (s : Nat) : Proto :=
  match alookup p k with
  | some (.accessor g0 _) => setKey p k (.accessor g0 (some s))
  | _ => setKey p k (.accessor none (some s))

/-- One step of exports.extend for property k of the source: accessors
are re-declared as accessors; otherwise the value is copied unless it is
undefined (an accessor with neither getter nor setter reads as
undefined, so it is skipped by the same test). -/
def applyDesc (p : Proto) (k : String) (d : Desc) : Proto :=
  match d with
  | .plain v => if v = .undefined then p else setKey p k (.plain v)
  | .bagVal b => setKey p k (.bagVal b)
  | .method f => setKey p k (.method f)
  | .accessor none none => p
  | .accessor (some g) none => defineGetter p k g
  | .accessor none (some s) => defineSetter p k s
  | .accessor (some g) (some s) => defineSetter (defineGetter p k g) k s

/-- exports.extend(obj, source): copy every source member onto obj. -/
def extendProto (obj source : Proto) : Proto :=
  source.foldl (fun acc kd => applyDesc acc kd.1 kd.2) obj

/-- A constructible entity type: its static members, its flattened
prototype, and the stored super_ reference (the base prototype). -/
structure EntityType where
  statics : Proto
  proto : Proto
  superProto : Option Proto

/-- The data-valued prototype members visible to plain property reads. -/
def protoPlainVals (p : Proto) : Bag :=
  p.filterMap (fun kd =>
    match kd.2 with
    | Desc.plain v => some (kd.1, v)
    | _ => none)

/-- this.defaults as seen by the constructor: the object-valued defaults
member of the prototype, or nothing. -/
def defaultsOf (p : Proto) : Bag :=
  match alookup p "defaults" with
  | some (.bagVal b) => b
  | _ => []

/-- this.init as resolved through the flattened prototype. -/
def initOf (p : Proto) : InitFn :=
  match alookup p "init" with
  | some (.method f) => f
  | _ => defaultInit

/-- new Type(...): the Model constructor protocol run with the type's
defaults, data-valued prototype members and init hook. -/
def EntityType.construct (ty : EntityType) (args : List Arg) : ModelState :=
  MnoVnoC.construct (defaultsOf ty.proto) (protoPlainVals ty.proto) (initOf ty.proto) args

/-- Model.derive(instanceProperties): copy the statics, copy the base
prototype then overlay the overrides, and record super_. -/
def EntityType.derive (base : EntityType) (instanceProperties : Proto) : EntityType :=
  { statics := extendProto [] base.statics,
    proto := extendProto (extendProto [] base.proto) instanceProperties,
    superProto := some base.proto }

/-- An init hook that assigns a fixed list of fields directly on the
instance (this[k] = v), the shape of the parent init in the two-level
derivation example. -/
def assignField (st : ModelState) (k : String) (v : JsVal) : ModelState :=
  { st with props := setKey st.props k v }

/-- Direct assignment of a whole list of fields, in order. -/
def assignAll (st : ModelState) (fields : Bag) : ModelState :=
  fields.foldl (fun s kv => assignField s kv.1 kv.2) st

/-- Parent init: directly assign the given fields. -/
def assignInit (fields : Bag) : InitFn := fun st _ => assignAll st fields

/-- Child init that first invokes the parent init through the stored
super prototype (Derived.super_.init.call(this, ...)) and then assigns
its own fields. -/
def superCallInit (superP : Proto) (fields : Bag) : InitFn :=
  fun st args => assignAll (initOf superP st args) fields

/-- Whether a member reads as undefined for the purposes of extend. -/
def Desc.isUndefLike : Desc → Bool
  | .plain .undefined => true
  | .accessor none none => true
  | _ => false

/-- An instance with no own properties, an empty prototype, clean dirty
state and no refreshedAt stamp. -/
def emptyModel : ModelState :=
  { props := [], protoVals := [], dirtyFields := none, refreshedAt := none }

/-- An init hook that records whether it received an object as its first
argument, used to observe what the constructor passes to init. -/
def firstArgIsObj (args : List Arg) : Bool :=
  match args.headD Arg.undefined with
  | Arg.obj _ => true
  | _ => false

/-- Observer init storing the observation as a field. -/
def obsInit : InitFn := fun st args =>
  { st with props := setKey st.props "firstIsObj" (JsVal.bool (firstArgIsObj args)) }


/-- A test adapter whose create assigns the id field and succeeds, and
whose other operations succeed without touching the entity. -/
def witnessData : DataOps Unit Nat :=
  { createOp := fun st _ => (st.set1 "id" (JsVal.num 1), none),
    updateOp := fun st _ => (st, none),
    fetchOp := fun st _ => (st, none),
    destroyOp := fun st _ => (st, none) }

/-- A test adapter whose operations fail with the opaque error value 7
without touching the entity. -/
def failingData : DataOps Unit Nat :=
  { createOp := fun st _ => (st, some 7),
    updateOp := fun st _ => (st, some 7),
    fetchOp := fun st _ => (st, some 7),
    destroyOp := fun st _ => (st, some 7) }

/-- A test adapter whose create reports success without assigning id. -/
def noIdCreateData : DataOps Unit Nat :=
  { createOp := fun st _ => (st, none),
    updateOp := fun st _ => (st, none),
    fetchOp := fun st _ => (st, none),
    destroyOp := fun st _ => (st, none) }

/-- An overridden validate that reports one business-rule violation. -/
def failingValidate : ModelState → ModelState × List String :=
  fun m => (m, ["name is required"])

/-- A base type whose init sets a parent flag, for the two-level
derivation example. -/
def witnessBase : EntityType :=
  { statics := [],
    proto := [("init", Desc.method (assignInit [("parentFlag", JsVal.bool true)]))],
    superProto := none }

/-- The child override for the derivation example: invoke the parent init
through the super prototype, then set a child flag. -/
def witnessChildInit : Desc :=
  Desc.method (superCallInit witnessBase.proto [("childFlag", JsVal.bool true)])

/-- A base type with one plain-valued member, for the override-skip
example. -/
def witnessBaseTen : EntityType :=
  { statics := [],
    proto := [("greeting", Desc.plain (JsVal.num 5))],
    superProto := none }

end MnoVnoC

namespace MnoVnoC

theorem alookup_setKey_self {α : Type} (l : List (String × α)) (k : String) (v : α) :
    alookup (setKey l k v) k = some v := by
  induction l with
  | nil => simp [setKey, alookup]
  | cons kv rest ih =>
    obtain ⟨k0, v0⟩ := kv
    by_cases h : k0 = k
    · simp [setKey, h, alookup]
    · simp [setKey, h, alookup, ih]

theorem alookup_setKey_ne {α : Type} (l : List (String × α)) (k k' : String) (v : α)
    (h : k' ≠ k) : alookup (setKey l k v) k' = alookup l k' := by
  have hkk : ¬ (k = k') := fun hh => h hh.symm
  induction l with
  | nil => simp [setKey, alookup, hkk]
  | cons kv rest ih =>
    obtain ⟨k0, v0⟩ := kv
    by_cases hk : k0 = k
    · subst hk
      simp [setKey, alookup, hkk]
    · simp [setKey, hk, alookup, ih]

theorem setKey_eq_append {α : Type} (l : List (String × α)) (k : String) (v : α)
    (h : alookup l k = none) : setKey l k v = l ++ [(k, v)] := by
  induction l with
  | nil => simp [setKey]
  | cons kv rest ih =>
    obtain ⟨k0, v0⟩ := kv
    by_cases hk : k0 = k
    · simp [alookup, hk] at h
    · simp only [alookup, hk, if_false, reduceIte] at h
      simp [setKey, hk, ih h]

theorem alookup_append_of_none {α : Type} (l1 l2 : List (String × α)) (k : String)
    (h : alookup l1 k = none) : alookup (l1 ++ l2) k = alookup l2 k := by
  induction l1 with
  | nil => simp
  | cons kv rest ih =>
    obtain ⟨k0, v0⟩ := kv
    by_cases hk : k0 = k
    · simp [alookup, hk] at h
    · simp only [alookup, hk, reduceIte] at h
      simp [alookup, hk, ih h]

theorem alookup_eq_none_of_not_mem {α : Type} (l : List (String × α)) (k : String)
    (h : k ∉ l.map Prod.fst) : alookup l k = none := by
  induction l with
  | nil => rfl
  | cons kv rest ih =>
    obtain ⟨k0, v0⟩ := kv
    have h1 : ¬ (k0 = k) := by
      intro hh
      exact h (by simp [hh])
    have h2 : k ∉ rest.map Prod.fst := by
      intro hh
      exact h (by simp [hh])
    simp [alookup, h1, ih h2]

theorem alookup_singleton_ne {α : Type} (k k' : String) (v : α) (h : k' ≠ k) :
    alookup [(k, v)] k' = none := by
  have h1 : ¬ (k = k') := fun hh => h hh.symm
  simp [alookup, h1]

end MnoVnoC

namespace MnoVnoC

theorem changed_eq_getD (m : ModelState) : m.changed = m.dirtyFields.getD [] := by
  rw [ModelState.changed]
  cases m.dirtyFields <;> rfl

theorem foldl_set1_fresh (F : Bag) : ∀ (st : ModelState),
    (F.map Prod.fst).Nodup →
    (∀ kv ∈ F, alookup st.props kv.1 = none) →
    (∀ kv ∈ F, alookup st.protoVals kv.1 = none) →
    (∀ kv ∈ F, alookup (st.dirtyFields.getD []) kv.1 = none) →
    (∀ kv ∈ F, stripUnderscore kv.1 = kv.1) →
    (∀ kv ∈ F, kv.2 ≠ JsVal.undefined) →
    F.foldl (fun s kv => s.set1 kv.1 kv.2) st =
      { st with props := st.props ++ F,
                dirtyFields := if F.isEmpty then st.dirtyFields
                               else some (st.dirtyFields.getD [] ++ F) } := by
  induction F with
  | nil =>
    intro st _ _ _ _ _ _
    simp
  | cons kv rest ih =>
    obtain ⟨k, v⟩ := kv
    intro st hnd hp hpv hd hs hv
    have hmem : (k, v) ∈ (k, v) :: rest := List.mem_cons_self _ _
    have hread : st.read k = JsVal.undefined := by
      simp [ModelState.read, hp (k, v) hmem, hpv (k, v) hmem]
    have hne : ¬ (st.read k = v) := by
      rw [hread]
      exact fun hh => hv (k, v) hmem hh.symm
    have hknotin : k ∉ rest.map Prod.fst := (List.nodup_cons.mp (by simpa using hnd)).1
    have hrest : ∀ kv2 ∈ rest, kv2.1 ≠ k := by
      intro kv2 h2 hh
      exact hknotin (hh ▸ List.mem_map_of_mem Prod.fst h2)
    have hset : st.set1 k v =
        { st with
          dirtyFields := some (st.dirtyFields.getD [] ++ [(k, v)]),
          props := st.props ++ [(k, v)] } := by
      rw [ModelState.set1, if_neg hne, hs (k, v) hmem,
        setKey_eq_append _ _ _ (hd (k, v) hmem), setKey_eq_append _ _ _ (hp (k, v) hmem)]
    have hprops2 : ∀ kv2 ∈ rest, alookup (st.props ++ [(k, v)]) kv2.1 = none := by
      intro kv2 h2
      rw [alookup_append_of_none _ _ _ (hp kv2 (List.mem_cons_of_mem _ h2))]
      exact alookup_singleton_ne k kv2.1 v (hrest kv2 h2)
    have hdirty2 : ∀ kv2 ∈ rest,
        alookup (st.dirtyFields.getD [] ++ [(k, v)]) kv2.1 = none := by
      intro kv2 h2
      rw [alookup_append_of_none _ _ _ (hd kv2 (List.mem_cons_of_mem _ h2))]
      exact alookup_singleton_ne k kv2.1 v (hrest kv2 h2)
    rw [List.foldl_cons, hset]
    rw [ih { st with
          dirtyFields := some (st.dirtyFields.getD [] ++ [(k, v)]),
          props := st.props ++ [(k, v)] }
        ((List.nodup_cons.mp (by simpa using hnd)).2)
        hprops2
        (fun kv2 h2 => hpv kv2 (List.mem_cons_of_mem _ h2))
        (by simpa using hdirty2)
        (fun kv2 h2 => hs kv2 (List.mem_cons_of_mem _ h2))
        (fun kv2 h2 => hv kv2 (List.mem_cons_of_mem _ h2))]
    by_cases hre : rest.isEmpty
    · rw [List.isEmpty_iff] at hre
      subst hre
      simp
    · simp only [hre, if_false, List.isEmpty_cons, Option.getD_some, Bool.false_eq_true]
      simp [List.append_assoc]

theorem alookup_defineGetter_ne (p : Proto) (k k' : String) (g : Nat) (h : k' ≠ k) :
    alookup (defineGetter p k g) k' = alookup p k' := by
  rw [defineGetter]
  cases hl : alookup p k with
  | none => exact alookup_setKey_ne _ _ _ _ h
  | some d => cases d <;> exact alookup_setKey_ne _ _ _ _ h

theorem alookup_defineSetter_ne (p : Proto) (k k' : String) (s : Nat) (h : k' ≠ k) :
    alookup (defineSetter p k s) k' = alookup p k' := by
  rw [defineSetter]
  cases hl : alookup p k with
  | none => exact alookup_setKey_ne _ _ _ _ h
  | some d => cases d <;> exact alookup_setKey_ne _ _ _ _ h

theorem alookup_applyDesc_ne (p : Proto) (k k' : String) (d : Desc) (h : k' ≠ k) :
    alookup (applyDesc p k d) k' = alookup p k' := by
  cases d with
  | plain v =>
    by_cases hv : v = JsVal.undefined
    · simp [applyDesc, hv]
    · simp [applyDesc, hv, alookup_setKey_ne _ _ _ _ h]
  | bagVal b => exact alookup_setKey_ne _ _ _ _ h
  | method f => exact alookup_setKey_ne _ _ _ _ h
  | accessor g s =>
    cases g with
    | none =>
      cases s with
      | none => rfl
      | some s0 => exact alookup_defineSetter_ne _ _ _ _ h
    | some g0 =>
      cases s with
      | none => exact alookup_defineGetter_ne _ _ _ _ h
      | some s0 =>
        rw [applyDesc, alookup_defineSetter_ne _ _ _ _ h, alookup_defineGetter_ne _ _ _ _ h]

theorem applyDesc_undefLike (p : Proto) (k : String) (d : Desc)
    (h : d.isUndefLike = true) : applyDesc p k d = p := by
  cases d with
  | plain v =>
    cases v with
    | undefined => rfl
    | null => simp [Desc.isUndefLike] at h
    | bool b => simp [Desc.isUndefLike] at h
    | num n => simp [Desc.isUndefLike] at h
    | str s => simp [Desc.isUndefLike] at h
  | bagVal b => simp [Desc.isUndefLike] at h
  | method f => simp [Desc.isUndefLike] at h
  | accessor g s =>
    cases g with
    | none =>
      cases s with
      | none => rfl
      | some s0 => simp [Desc.isUndefLike] at h
    | some g0 => cases s <;> simp [Desc.isUndefLike] at h

theorem alookup_applyDesc_self (p : Proto) (k : String) (d : Desc)
    (hp : alookup p k = none) (hd : d.isUndefLike = false) :
    alookup (applyDesc p k d) k = some d := by
  cases d with
  | plain v =>
    by_cases hv : v = JsVal.undefined
    · subst hv
      simp [Desc.isUndefLike] at hd
    · simp [applyDesc, hv, alookup_setKey_self]
  | bagVal b => exact alookup_setKey_self _ _ _
  | method f => exact alookup_setKey_self _ _ _
  | accessor g s =>
    cases g with
    | none =>
      cases s with
      | none => simp [Desc.isUndefLike] at hd
      | some s0 =>
        rw [applyDesc, defineSetter, hp, alookup_setKey_self]
    | some g0 =>
      cases s with
      | none =>
        rw [applyDesc, defineGetter, hp, alookup_setKey_self]
      | some s0 =>
        rw [applyDesc, defineSetter, defineGetter, hp, alookup_setKey_self,
          alookup_setKey_self]

theorem extendProto_skip (source : Proto) : ∀ (obj : Proto) (k : String),
    (∀ d2, (k, d2) ∈ source → d2.isUndefLike = true) →
    alookup (extendProto obj source) k = alookup obj k := by
  induction source with
  | nil =>
    intro obj k _
    rfl
  | cons kd rest ih =>
    obtain ⟨k0, d0⟩ := kd
    intro obj k h
    rw [extendProto, List.foldl_cons]
    by_cases hk : k0 = k
    · subst hk
      rw [applyDesc_undefLike _ _ _ (h d0 (List.mem_cons_self _ _))]
      exact ih obj k0 (fun d2 h2 => h d2 (List.mem_cons_of_mem _ h2))
    · have hih := ih (applyDesc obj k0 d0) k (fun d2 h2 => h d2 (List.mem_cons_of_mem _ h2))
      rw [extendProto] at hih
      rw [hih, alookup_applyDesc_ne _ _ _ _ (fun hh => hk hh.symm)]

theorem extendProto_not_mem (source : Proto) : ∀ (obj : Proto) (k : String),
    k ∉ source.map Prod.fst →
    alookup (extendProto obj source) k = alookup obj k := by
  induction source with
  | nil =>
    intro obj k _
    rfl
  | cons kd rest ih =>
    obtain ⟨k0, d0⟩ := kd
    intro obj k h
    have h1 : ¬ (k = k0) := by
      intro hh
      exact h (by simp [hh])
    have h2 : k ∉ rest.map Prod.fst := by
      intro hh
      exact h (by simp [hh])
    rw [extendProto, List.foldl_cons]
    have hih := ih (applyDesc obj k0 d0) k h2
    rw [extendProto] at hih
    rw [hih, alookup_applyDesc_ne _ _ _ _ h1]

theorem extendProto_mem (source : Proto) : ∀ (obj : Proto) (k : String) (d : Desc),
    (source.map Prod.fst).Nodup →
    (k, d) ∈ source →
    d.isUndefLike = false →
    alookup obj k = none →
    alookup (extendProto obj source) k = some d := by
  induction source with
  | nil =>
    intro obj k d _ hm
    exact absurd hm (List.not_mem_nil _)
  | cons kd rest ih =>
    obtain ⟨k0, d0⟩ := kd
    intro obj k d hnd hm hd hobj
    rw [List.map_cons] at hnd
    have hnd2 := List.nodup_cons.mp hnd
    rw [extendProto, List.foldl_cons]
    rcases List.mem_cons.mp hm with heq | hrest
    · injection heq with heq1 heq2
      subst heq1
      subst heq2
      have hnotin : k ∉ rest.map Prod.fst := hnd2.1
      have hskip := extendProto_not_mem rest (applyDesc obj k d) k hnotin
      rw [extendProto] at hskip
      rw [hskip]
      exact alookup_applyDesc_self _ _ _ hobj hd
    · have hkk : ¬ (k = k0) := by
        intro hh
        subst hh
        exact hnd2.1 (List.mem_map.mpr ⟨(k, d), hrest, rfl⟩)
      have hih := ih (applyDesc obj k0 d0) k d hnd2.2 hrest hd
        (by rw [alookup_applyDesc_ne _ _ _ _ hkk]; exact hobj)
      rw [extendProto] at hih
      rw [hih]

theorem alookup_assignAll_not_mem (L : Bag) : ∀ (st : ModelState) (k : String),
    k ∉ L.map Prod.fst →
    alookup (assignAll st L).props k = alookup st.props k := by
  induction L with
  | nil =>
    intro st k _
    rfl
  | cons kv rest ih =>
    obtain ⟨k0, v0⟩ := kv
    intro st k h
    have h1 : ¬ (k = k0) := by
      intro hh
      exact h (by simp [hh])
    have h2 : k ∉ rest.map Prod.fst := by
      intro hh
      exact h (by simp [hh])
    rw [assignAll, List.foldl_cons]
    have hih := ih (assignField st k0 v0) k h2
    rw [assignAll] at hih
    rw [hih, assignField, alookup_setKey_ne _ _ _ _ h1]

theorem alookup_assignAll_mem (L : Bag) : ∀ (st : ModelState) (k : String) (v : JsVal),
    (L.map Prod.fst).Nodup →
    (k, v) ∈ L →
    alookup (assignAll st L).props k = some v := by
  induction L with
  | nil =>
    intro st k v _ hm
    exact absurd hm (List.not_mem_nil _)
  | cons kv rest ih =>
    obtain ⟨k0, v0⟩ := kv
    intro st k v hnd hm
    rw [List.map_cons] at hnd
    have hnd2 := List.nodup_cons.mp hnd
    rw [assignAll, List.foldl_cons]
    rcases List.mem_cons.mp hm with heq | hrest
    · injection heq with heq1 heq2
      subst heq1
      subst heq2
      have hskip := alookup_assignAll_not_mem rest (assignField st k v) k hnd2.1
      rw [assignAll] at hskip
      rw [hskip, assignField, alookup_setKey_self]
    · have hih := ih (assignField st k0 v0) k v hnd2.2 hrest
      rw [assignAll] at hih
      rw [hih]

end MnoVnoC

namespace MnoVnoC

/-- Claim C1: once validation passes, save dispatches on the id field of
the state validate left behind — a nullish id means create is the one
and only adapter operation invoked, a non-nullish id means update is the
one and only adapter operation invoked, for every adapter (so the choice
is never re-examined after the adapter call starts, even if the adapter
changes the id). -/
theorem save_dispatch_by_id_at_validation {O E : Type} (data : DataOps O E)
    (validateF : ModelState → ModelState × List String) (options : O) (m : ModelState)
    (hv : (validateF m).2 = []) :
    (((validateF m).1.read "id").isNullish = true →
      (save data validateF options m).2.2 = [AdapterCall.createCall]) ∧
    (((validateF m).1.read "id").isNullish = false →
      (save data validateF options m).2.2 = [AdapterCall.updateCall]) := by
  constructor
  · intro hid
    rw [save, saveAfterValidate]
    simp only [hv, List.length_nil, gt_iff_lt, lt_irrefl, if_false, hid]
    cases hc : data.createOp (validateF m).1 options with
    | mk m2 e =>
      cases e with
      | none =>
        simp [hc]
        split <;> rfl
      | some err => simp [hc]
  · intro hid
    rw [save, saveAfterValidate]
    simp only [hv, List.length_nil, gt_iff_lt, lt_irrefl, if_false, hid]
    cases hc : data.updateOp (validateF m).1 options with
    | mk m2 e =>
      cases e <;> simp [hc]

/-- Witness for C1: with a concrete adapter, a new entity's save invokes
exactly create and an entity with id 7 invokes exactly update. -/
theorem save_dispatch_by_id_witness :
    (save witnessData defaultValidate () emptyModel).2.2 = [AdapterCall.createCall] ∧
    (save witnessData defaultValidate ()
      { emptyModel with props := [("id", JsVal.num 7)] }).2.2 = [AdapterCall.updateCall] := by
  constructor
  · exact (save_dispatch_by_id_at_validation witnessData defaultValidate () emptyModel
      rfl).1 (by decide)
  · exact (save_dispatch_by_id_at_validation witnessData defaultValidate ()
      { emptyModel with props := [("id", JsVal.num 7)] } rfl).2 (by decide)

/-- Claim C2: when validate delivers a non-empty error list, save's
callback receives a validation-error result carrying exactly that list,
no adapter operation is invoked, and save leaves the entity (dirty state
included) exactly as validate left it. -/
theorem save_validation_errors_block_adapter {O E : Type} (data : DataOps O E)
    (validateF : ModelState → ModelState × List String) (options : O) (m : ModelState)
    (hv : (validateF m).2 ≠ []) :
    save data validateF options m =
      ((validateF m).1, some (SaveError.validationErrors (validateF m).2), []) ∧
    ((validateF m).1.dirtyFields = m.dirtyFields →
      (save data validateF options m).1.dirtyFields = m.dirtyFields) := by
  have hlen : (validateF m).2.length > 0 := List.length_pos.mpr hv
  have h1 : save data validateF options m =
      ((validateF m).1, some (SaveError.validationErrors (validateF m).2), []) := by
    rw [save, saveAfterValidate, if_pos hlen]
  exact ⟨h1, fun h2 => by rw [h1]; exact h2⟩

/-- Witness for C2: a validate reporting one error string makes save fail
with exactly that validation-error list, no adapter call, dirty state
untouched. -/
theorem save_validation_errors_witness :
    save witnessData failingValidate () emptyModel =
      (emptyModel, some (SaveError.validationErrors ["name is required"]), []) ∧
    (save witnessData failingValidate () emptyModel).1.dirtyFields =
      emptyModel.dirtyFields := by
  have h := save_validation_errors_block_adapter witnessData failingValidate () emptyModel
    (by decide)
  exact ⟨h.1, h.2 rfl⟩

/-- Claim C3 counterexample: the empty field set (with no id) yields a
freshly constructed entity whose hasChanged is false, not true as the
claim states for every field set. -/
theorem construct_empty_fields_not_changed :
    (construct [] [] defaultInit [Arg.obj []]).hasChanged = false ∧
    (construct [] [] defaultInit [Arg.obj []]).changed = [] := by
  exact ⟨by decide, by decide⟩

/-- Claim C3 as amended: for every non-empty field set with distinct
keys, no id key, no key beginning with an underscore and no undefined
value, an entity constructed from the base type (empty defaults and
prototype, no-op init) has hasChanged true and changed equal to the
field set exactly. -/
theorem construct_fields_all_dirty (F : Bag)
    (hne : F ≠ [])
    (hnd : (F.map Prod.fst).Nodup)
    (hid : "id" ∉ F.map Prod.fst)
    (hstrip : ∀ kv ∈ F, stripUnderscore kv.1 = kv.1)
    (hundefined : ∀ kv ∈ F, kv.2 ≠ JsVal.undefined) :
    (construct [] [] defaultInit [Arg.obj F]).hasChanged = true ∧
    (construct [] [] defaultInit [Arg.obj F]).changed = F := by
  have hF : F.isEmpty = false := by
    cases F with
    | nil => exact absurd rfl hne
    | cons a l => rfl
  have h0 := foldl_set1_fresh F
    { props := [], protoVals := [], dirtyFields := none, refreshedAt := none }
    hnd (fun kv _ => rfl) (fun kv _ => rfl) (fun kv _ => rfl) hstrip hundefined
  have hidn : alookup F "id" = none := alookup_eq_none_of_not_mem F "id" hid
  have hcp : constructPre [] [] [Arg.obj F] =
      { props := F, protoVals := [], dirtyFields := some F, refreshedAt := none } := by
    unfold constructPre
    simp only [List.foldl_nil, List.headD, coerceProps, Arg.bag]
    rw [h0]
    simp [hF, hidn, JsVal.isNullish]
  have hc : construct [] [] defaultInit [Arg.obj F] =
      { props := F, protoVals := [], dirtyFields := some F, refreshedAt := none } := by
    rw [construct, hcp]
    rfl
  rw [hc]
  exact ⟨rfl, rfl⟩

/-- Witness for the amended C3: the spec scenario with fields foo and
bar. -/
theorem construct_fields_all_dirty_witness :
    (construct [] [] defaultInit
      [Arg.obj [("foo", JsVal.num 1), ("bar", JsVal.num 2)]]).hasChanged = true ∧
    (construct [] [] defaultInit
      [Arg.obj [("foo", JsVal.num 1), ("bar", JsVal.num 2)]]).changed =
      [("foo", JsVal.num 1), ("bar", JsVal.num 2)] := by
  exact construct_fields_all_dirty [("foo", JsVal.num 1), ("bar", JsVal.num 2)]
    (by decide) (by decide) (by decide) (by decide) (by decide)

/-- Claim C4 counterexample: a field set containing the id key with a
null value leaves the entity dirty after construction, because the code
tests properties.id != null, not key presence. -/
theorem construct_null_id_marks_dirty :
    (construct [] [] defaultInit [Arg.obj [("id", JsVal.null)]]).hasChanged = true ∧
    (construct [] [] defaultInit [Arg.obj [("id", JsVal.null)]]).changed =
      [("id", JsVal.null)] := by
  exact ⟨by decide, by decide⟩

/-- Claim C4 as amended: a field set whose id entry has a value that is
neither null nor undefined yields, for every defaults record and
prototype (with the no-op init), an entity with hasChanged false and
changed empty — dirtying from defaults application is discarded too. -/
theorem construct_nonnull_id_clears_dirty (defaults protoValues F : Bag) (v : JsVal)
    (hid : alookup F "id" = some v)
    (hv : v.isNullish = false) :
    (construct defaults protoValues defaultInit [Arg.obj F]).hasChanged = false ∧
    (construct defaults protoValues defaultInit [Arg.obj F]).changed = [] := by
  rw [construct, constructPre]
  simp only [List.headD, coerceProps, Arg.bag, hid, Option.getD_some, hv,
    Bool.false_eq_true, if_false, defaultInit]
  exact ⟨rfl, rfl⟩

/-- Witness for the amended C4: constructing with id 3 and one other
field leaves the entity clean even though defaults dirtied it first. -/
theorem construct_nonnull_id_clears_dirty_witness :
    (construct [("c", JsVal.num 9)] [] defaultInit
      [Arg.obj [("id", JsVal.num 3), ("x", JsVal.num 1)]]).hasChanged = false ∧
    (construct [("c", JsVal.num 9)] [] defaultInit
      [Arg.obj [("id", JsVal.num 3), ("x", JsVal.num 1)]]).changed = [] := by
  exact construct_nonnull_id_clears_dirty [("c", JsVal.num 9)] []
    [("id", JsVal.num 3), ("x", JsVal.num 1)] (JsVal.num 3) (by decide) (by decide)

/-- Claim C5: fetch delegates to the adapter; on success it stamps
refreshedAt with the current time, clears dirty state and reports no
error; on failure it adds nothing of its own — the entity state is
exactly what the adapter produced (refreshedAt and dirty state are not
touched by fetch) and the adapter's error is passed through unchanged. -/
theorem fetch_success_sets_refresh_failure_preserves {O E : Type} (data : DataOps O E)
    (options : O) (now : Nat) (m : ModelState) :
    ((data.fetchOp m options).2 = none →
      fetch data options now m =
        ({ (data.fetchOp m options).1 with refreshedAt := some now, dirtyFields := none },
          none)) ∧
    (∀ e, (data.fetchOp m options).2 = some e →
      fetch data options now m = ((data.fetchOp m options).1, some e)) := by
  cases hf : data.fetchOp m options with
  | mk m2 eo =>
    cases eo with
    | none =>
      refine ⟨fun _ => ?_, fun e he => ?_⟩
      · simp [fetch, hf]
      · simp at he
    | some e0 =>
      refine ⟨fun hn => ?_, fun e he => ?_⟩
      · simp at hn
      · simp only [] at he
        have he2 : e0 = e := by simpa using he
        subst he2
        simp [fetch, hf]

/-- Witness for C5: a succeeding adapter stamps refreshedAt 42 and
clears dirty state; a failing adapter leaves the entity untouched and
its error 7 is passed through. -/
theorem fetch_spec_witness :
    fetch witnessData () 42 emptyModel =
      ({ emptyModel with refreshedAt := some 42, dirtyFields := none }, none) ∧
    fetch failingData () 42 emptyModel = (emptyModel, some 7) := by
  constructor
  · exact (fetch_success_sets_refresh_failure_preserves witnessData () 42 emptyModel).1 rfl
  · exact (fetch_success_sets_refresh_failure_preserves failingData () 42 emptyModel).2 7 rfl

/-- Claim C6: when a new entity's create succeeds but the id field is
still nullish afterwards, save fails with the implementation-error
result (a constructor distinct from the validation-error kind) and does
not clear dirty state — the final state is exactly what create
produced. -/
theorem save_create_missing_id_bad_implementation {O E : Type} (data : DataOps O E)
    (validateF : ModelState → ModelState × List String) (options : O) (m m2 : ModelState)
    (hv : (validateF m).2 = [])
    (hnew : ((validateF m).1.read "id").isNullish = true)
    (hcr : data.createOp (validateF m).1 options = (m2, none))
    (hid : (m2.read "id").isNullish = true) :
    save data validateF options m =
      (m2, some (SaveError.badImplementation badImplMessage), [AdapterCall.createCall]) ∧
    (∀ errs, (SaveError.badImplementation badImplMessage : SaveError E) ≠
      SaveError.validationErrors errs) ∧
    (save data validateF options m).1.dirtyFields = m2.dirtyFields := by
  have h1 : save data validateF options m =
      (m2, some (SaveError.badImplementation badImplMessage), [AdapterCall.createCall]) := by
    rw [save, saveAfterValidate]
    simp only [hv, List.length_nil, gt_iff_lt, lt_irrefl, if_false, hnew, hcr, hid]
    simp
  refine ⟨h1, fun errs h2 => SaveError.noConfusion h2, ?_⟩
  rw [h1]

/-- Witness for C6: an adapter whose create succeeds without assigning
id makes save fail with the implementation-error result. -/
theorem save_create_missing_id_witness :
    save noIdCreateData defaultValidate () emptyModel =
      (emptyModel, some (SaveError.badImplementation badImplMessage),
        [AdapterCall.createCall]) := by
  exact (save_create_missing_id_bad_implementation noIdCreateData defaultValidate ()
    emptyModel emptyModel rfl (by decide) rfl (by decide)).1

/-- Claim C7 counterexample: on an entity that previously set the
double-underscored field __x (leaving dirty key _x), setting _x to a new
value leaves a changed() entry under _x, contradicting the claim that
changed() has no such key; the second conjunct shows the claim's
precondition (new value differs from the current one) held. -/
theorem set_underscore_stale_entry :
    (emptyModel.set1 "__x" (JsVal.num 1)).read "_x" ≠ JsVal.num 2 ∧
    alookup ((emptyModel.set1 "__x" (JsVal.num 1)).set1 "_x" (JsVal.num 2)).changed "_x" =
      some (JsVal.num 1) := by
  exact ⟨by decide, by decide⟩

/-- Claim C7 as amended: setting a field named with a leading underscore
to a value different from its current one records the dirty entry under
the stripped key, and changed() has no entry under the underscored name
provided it had none before the call. -/
theorem set_underscore_records_stripped (m : ModelState) (name : String) (v : JsVal)
    (hne : m.read name ≠ v)
    (hdiff : stripUnderscore name ≠ name)
    (hprior : alookup m.changed name = none) :
    alookup (m.set1 name v).changed (stripUnderscore name) = some v ∧
    alookup (m.set1 name v).changed name = none := by
  have h1 : m.set1 name v =
      { m with
        dirtyFields := some (setKey (m.dirtyFields.getD []) (stripUnderscore name) v),
        props := setKey m.props name v } := by
    rw [ModelState.set1, if_neg hne]
  rw [changed_eq_getD] at hprior
  rw [h1]
  constructor
  · exact alookup_setKey_self _ _ _
  · show alookup (setKey (m.dirtyFields.getD []) (stripUnderscore name) v) name = none
    rw [alookup_setKey_ne _ _ _ _ (Ne.symm hdiff)]
    exact hprior

/-- Witness for the amended C7: setting _name on a fresh entity records
dirty key name and no _name key. -/
theorem set_underscore_records_stripped_witness :
    alookup (emptyModel.set1 "_name" (JsVal.str "al")).changed (stripUnderscore "_name") =
      some (JsVal.str "al") ∧
    alookup (emptyModel.set1 "_name" (JsVal.str "al")).changed "_name" = none := by
  exact set_underscore_records_stripped emptyModel "_name" (JsVal.str "al")
    (by decide) (by decide) (by decide)

/-- Claim C8 counterexample: with zero constructor arguments, init does
not receive the resolved empty mapping as its first argument — the
observing init records that its first argument is not an object (while a
one-argument call with an absent value does hand it the resolved empty
object, second conjunct). -/
theorem construct_no_args_init_unresolved :
    (construct [] [] obsInit []).read "firstIsObj" = JsVal.bool false ∧
    (construct [] [] obsInit [Arg.undefined]).read "firstIsObj" = JsVal.bool true := by
  exact ⟨by decide, by decide⟩

/-- Claim C8 as amended: the constructor resolves an absent properties
argument to an empty mapping for its own protocol, and init receives the
resolved mapping as its first argument whenever at least one argument
was supplied (the sloppy-mode arguments alias picks up the
reassignment); with zero arguments init is invoked with no arguments, so
its first parameter is undefined rather than the resolved mapping. -/
theorem construct_init_receives_resolved_args (defaults protoValues : Bag)
    (initHook : InitFn) (rest : List Arg) :
    construct defaults protoValues initHook [] =
      initHook (constructPre defaults protoValues []) [] ∧
    construct defaults protoValues initHook (Arg.undefined :: rest) =
      initHook (constructPre defaults protoValues (Arg.undefined :: rest)) (Arg.obj [] :: rest) ∧
    (∀ b : Bag, construct defaults protoValues initHook (Arg.obj b :: rest) =
      initHook (constructPre defaults protoValues (Arg.obj b :: rest)) (Arg.obj b :: rest)) := by
  exact ⟨rfl, rfl, fun b => rfl⟩

/-- Claim C9: for a two-level derivation whose child init invokes the
parent init through the stored super prototype and then performs its own
assignments, the derived type's super_ reference is the base prototype,
and a constructed instance carries every field the parent init assigned
as well as every field the child init assigned (both initializations'
side effects), for any constructor arguments. -/
theorem derive_super_init_both_effects (base : EntityType)
    (parentFields childFields : Bag) (args : List Arg)
    (hinit : alookup base.proto "init" = some (Desc.method (assignInit parentFields)))
    (hndP : (parentFields.map Prod.fst).Nodup)
    (hndC : (childFields.map Prod.fst).Nodup)
    (hdisj : ∀ k ∈ parentFields.map Prod.fst, k ∉ childFields.map Prod.fst) :
    (base.derive [("init", Desc.method (superCallInit base.proto childFields))]).superProto =
      some base.proto ∧
    (∀ kv ∈ parentFields,
      ((base.derive
        [("init", Desc.method (superCallInit base.proto childFields))]).construct args).read
        kv.1 = kv.2) ∧
    (∀ kv ∈ childFields,
      ((base.derive
        [("init", Desc.method (superCallInit base.proto childFields))]).construct args).read
        kv.1 = kv.2) := by
  have hio : initOf
      (base.derive [("init", Desc.method (superCallInit base.proto childFields))]).proto =
      superCallInit base.proto childFields := by
    show initOf (extendProto (extendProto [] base.proto)
      [("init", Desc.method (superCallInit base.proto childFields))]) =
      superCallInit base.proto childFields
    rw [extendProto, List.foldl_cons, List.foldl_nil, applyDesc, initOf, alookup_setKey_self]
  have hrun : (base.derive
      [("init", Desc.method (superCallInit base.proto childFields))]).construct args =
      assignAll (assignAll
        (constructPre
          (defaultsOf (base.derive
            [("init", Desc.method (superCallInit base.proto childFields))]).proto)
          (protoPlainVals (base.derive
            [("init", Desc.method (superCallInit base.proto childFields))]).proto)
          args)
        parentFields) childFields := by
    rw [EntityType.construct, construct, hio]
    simp only [superCallInit, initOf, hinit, assignInit]
  refine ⟨rfl, fun kv hm => ?_, fun kv hm => ?_⟩
  · have hnotC : kv.1 ∉ childFields.map Prod.fst :=
      hdisj kv.1 (List.mem_map.mpr ⟨kv, hm, rfl⟩)
    have h1 := alookup_assignAll_not_mem childFields
      (assignAll (constructPre
        (defaultsOf (base.derive
          [("init", Desc.method (superCallInit base.proto childFields))]).proto)
        (protoPlainVals (base.derive
          [("init", Desc.method (superCallInit base.proto childFields))]).proto)
        args) parentFields) kv.1 hnotC
    have h2 := alookup_assignAll_mem parentFields
      (constructPre
        (defaultsOf (base.derive
          [("init", Desc.method (superCallInit base.proto childFields))]).proto)
        (protoPlainVals (base.derive
          [("init", Desc.method (superCallInit base.proto childFields))]).proto)
        args) kv.1 kv.2 hndP (by simpa using hm)
    rw [hrun, ModelState.read, h1, h2]
  · have h1 := alookup_assignAll_mem childFields
      (assignAll (constructPre
        (defaultsOf (base.derive
          [("init", Desc.method (superCallInit base.proto childFields))]).proto)
        (protoPlainVals (base.derive
          [("init", Desc.method (superCallInit base.proto childFields))]).proto)
        args) parentFields) kv.1 kv.2 hndC (by simpa using hm)
    rw [hrun, ModelState.read, h1]

/-- Witness for C9: a parent init setting parentFlag and a child init
that super-calls it then sets childFlag both take effect on a
constructed instance, and super_ is the base prototype. -/
theorem derive_super_init_witness :
    (witnessBase.derive [("init", witnessChildInit)]).superProto = some witnessBase.proto ∧
    ((witnessBase.derive [("init", witnessChildInit)]).construct []).read "parentFlag" =
      JsVal.bool true ∧
    ((witnessBase.derive [("init", witnessChildInit)]).construct []).read "childFlag" =
      JsVal.bool true := by
  have h := derive_super_init_both_effects witnessBase
    [("parentFlag", JsVal.bool true)] [("childFlag", JsVal.bool true)] []
    (by simp [witnessBase, alookup]) (by decide) (by decide) (by decide)
  exact ⟨h.1, h.2.1 ("parentFlag", JsVal.bool true) (by simp),
    h.2.2 ("childFlag", JsVal.bool true) (by simp)⟩

/-- Claim C10: an overrides entry whose value is undefined (and which
declares no getter or setter) is not copied by derive, so the member the
derived prototype holds under that key is the one copied from the base
prototype. -/
theorem derive_undefined_override_keeps_base (base : EntityType) (overrides : Proto)
    (k : String) (d : Desc)
    (hov : ∀ d2, (k, d2) ∈ overrides → d2 = Desc.plain JsVal.undefined)
    (hbase : (k, d) ∈ base.proto)
    (hnd : (base.proto.map Prod.fst).Nodup)
    (hd : d.isUndefLike = false) :
    alookup (base.derive overrides).proto k = some d := by
  show alookup (extendProto (extendProto [] base.proto) overrides) k = some d
  rw [extendProto_skip overrides (extendProto [] base.proto) k
    (fun d2 h2 => by rw [hov d2 h2]; rfl)]
  exact extendProto_mem base.proto [] k d hnd hbase hd rfl

/-- Witness for C10: overriding the plain member greeting with undefined
leaves the base value 5 in effect on the derived prototype. -/
theorem derive_undefined_override_witness :
    alookup (witnessBaseTen.derive [("greeting", Desc.plain JsVal.undefined)]).proto
      "greeting" = some (Desc.plain (JsVal.num 5)) := by
  exact derive_undefined_override_keeps_base witnessBaseTen
    [("greeting", Desc.plain JsVal.undefined)] "greeting" (Desc.plain (JsVal.num 5))
    (fun d2 h2 => by simpa using h2)
    (List.mem_singleton.mpr rfl)
    (by decide)
    rfl

end MnoVnoC
